import Mathlib
/-!
Verification of the market-data normalization and caching layer of the
Live-stock streamlit dashboard (files `streamlit_app.py`,
`pages/Crypto_Prices.py`, `pages/Crypto_Stocks.py`).

The Python float values flowing through the normalizers are modelled by
`PyFloat`: exact rationals extended with `nan` and the two infinities,
with IEEE-style special-value propagation (signed zeros and binary
rounding of finite arithmetic are not modelled; every claim below only
exercises operations whose finite results are exact).
-/

/-- Model of a Python/numpy double: a rational, `nan`, or a signed infinity. -/
inductive PyFloat : Type
  | nan : PyFloat
  | inf : PyFloat
  | ninf : PyFloat
  | val : ℚ → PyFloat
deriving DecidableEq

/-- Python `math.isnan` / `np.isnan`. -/
def PyFloat.isNaN : PyFloat → Bool
  | .nan => true
  | _ => false

/-- IEEE-style addition on the model (exact on finite values). -/
def PyFloat.add : PyFloat → PyFloat → PyFloat
  | .nan, _ => .nan
  | _, .nan => .nan
  | .inf, .ninf => .nan
  | .ninf, .inf => .nan
  | .inf, _ => .inf
  | _, .inf => .inf
  | .ninf, _ => .ninf
  | _, .ninf => .ninf
  | .val a, .val b => .val (a + b)

/-- IEEE-style subtraction on the model (exact on finite values). -/
def PyFloat.sub : PyFloat → PyFloat → PyFloat
  | .nan, _ => .nan
  | _, .nan => .nan
  | .inf, .inf => .nan
  | .ninf, .ninf => .nan
  | .inf, _ => .inf
  | .ninf, _ => .ninf
  | .val _, .inf => .ninf
  | .val _, .ninf => .inf
  | .val a, .val b => .val (a - b)

/-- IEEE-style multiplication on the model (exact on finite values). -/
def PyFloat.mul : PyFloat → PyFloat → PyFloat
  | .nan, _ => .nan
  | _, .nan => .nan
  | .inf, .inf => .inf
  | .inf, .ninf => .ninf
  | .ninf, .inf => .ninf
  | .ninf, .ninf => .inf
  | .inf, .val b => if b = 0 then .nan else if 0 < b then .inf else .ninf
  | .val a, .inf => if a = 0 then .nan else if 0 < a then .inf else .ninf
  | .ninf, .val b => if b = 0 then .nan else if 0 < b then .ninf else .inf
  | .val a, .ninf => if a = 0 then .nan else if 0 < a then .ninf else .inf
  | .val a, .val b => .val (a * b)

/-- IEEE/numpy-style division on the model: a nonzero finite value divided by
zero yields a signed infinity, `0/0` yields `nan` (numpy emits a warning but
no exception); signed zeros are collapsed to `0`. -/
def PyFloat.div : PyFloat → PyFloat → PyFloat
  | .nan, _ => .nan
  | _, .nan => .nan
  | .inf, .inf => .nan
  | .inf, .ninf => .nan
  | .ninf, .inf => .nan
  | .ninf, .ninf => .nan
  | .inf, .val b => if 0 ≤ b then .inf else .ninf
  | .ninf, .val b => if 0 ≤ b then .ninf else .inf
  | .val _, .inf => .val 0
  | .val _, .ninf => .val 0
  | .val a, .val b =>
      if b = 0 then (if a = 0 then .nan else if 0 < a then .inf else .ninf)
      else .val (a / b)

instance : Add PyFloat := ⟨PyFloat.add⟩

instance : Sub PyFloat := ⟨PyFloat.sub⟩

instance : Mul PyFloat := ⟨PyFloat.mul⟩

instance : Div PyFloat := ⟨PyFloat.div⟩

/-- Python truthiness of a float: everything but `0.0` is truthy
(`nan` and the infinities are truthy). -/
def PyFloat.truthy : PyFloat → Bool
  | .val q => decide (q ≠ 0)
  | _ => true

/-- Round a rational to the nearest integer, ties to even
(the rounding mode of `numpy.round`). -/
def round_half_even (x : ℚ) : ℤ :=
  let f : ℤ := Int.floor x
  let r : ℚ := x - (f : ℚ)
  if r < 1/2 then f
  else if 1/2 < r then f + 1
  else if f % 2 = 0 then f else f + 1

/-- Model of `Series.round(2)`: round to two decimal places, `nan`/infinities unchanged. -/
def py_round2 : PyFloat → PyFloat
  | .val q => .val ((round_half_even (q * 100) : ℚ) / 100)
  | x => x

/-- Model of `pandas.Series.sum()`: fold with `+` starting from `0`, skipping `nan`
entries (pandas `skipna=True` default). -/
def pySum (l : List PyFloat) : PyFloat :=
  l.foldl (fun acc v => if v.isNaN then acc else acc + v) (.val 0)

/-- Lookup in a Python dict modelled as an association list
(`d.get(k, dflt)`). -/
def dict_get (d : List (String × PyFloat)) (k : String) (dflt : PyFloat) : PyFloat :=
  match d.find? (fun e => e.1 == k) with
  | some e => e.2
  | none => dflt

/-- Accumulator for `py_split`: splits a character list at every separator
occurrence, as Python `str.split(sep)` does for a one-character separator. -/
def py_split_aux (sep : Char) : List Char → List Char → List (List Char)
  | [], acc => [acc.reverse]
  | c :: cs, acc =>
      if c = sep then acc.reverse :: py_split_aux sep cs []
      else py_split_aux sep cs (c :: acc)

/-- Python `s.split(sep)` for a single-character separator: splits at every
occurrence of `sep` (not only the last one). -/
def py_split (s : String) (sep : Char) : List String :=
  (py_split_aux sep s.data []).map (fun l => String.mk l)

/-- Python `s.endswith(suffix)`. -/
def py_endswith (s : String) (suffix : String) : Bool :=
  suffix.data.isSuffixOf s.data

/-- Helper for `py_title`: the boolean records whether the previous character
was alphabetic. -/
def py_title_aux : List Char → Bool → List Char
  | [], _ => []
  | c :: cs, prevAlpha =>
      (if c.isAlpha then (if prevAlpha then c.toLower else c.toUpper) else c)
        :: py_title_aux cs c.isAlpha

/-- Python `str.title` (restricted to alphabetic casing, which covers the
ASCII column names it is applied to). -/
def py_title (s : String) : String :=
  String.mk (py_title_aux s.data false)

/-! ## Network boundary

`requests.get(...).json()` either produces a decoded payload or raises.
A timeout, a connection failure, and a body that is not JSON all surface
as a raised exception at the call site (`requests` does not raise on a
non-2xx status by itself: an error body that still parses as JSON is an
`ok` payload missing the expected keys). -/

/-- The exceptional outcomes of `requests.get(...).json()`. -/
inductive NetErr : Type
  | timeout : NetErr
  | connectError : NetErr
  | malformedBody : NetErr
deriving DecidableEq

/-- Result of the HTTP-and-decode step feeding each fetch function. -/
inductive HttpResult (α : Type) : Type
  | ok : α → HttpResult α
  | exn : NetErr → HttpResult α
deriving DecidableEq

/-- A Python exception escaping one of the page functions. -/
inductive PyExn : Type
  | netExn : NetErr → PyExn
  | keyError : PyExn
deriving DecidableEq

/-! ## Canonical bars

The canonical row shape `Date, Open, High, Low, Close, Volume` shared by
`fetch_history` and `av_fetch_daily_series`. Dates are modelled as already
parsed comparable day ordinals (`pd.to_datetime` string parsing is
abstracted; the claims never turn on date parsing itself). -/

/-- One canonical OHLCV row. Field names follow the pandas column names. -/
structure Bar : Type where
  Date : ℕ
  Open : PyFloat
  High : PyFloat
  Low : PyFloat
  Close : PyFloat
  Volume : PyFloat
deriving DecidableEq

/-- The comparison `sort_values("Date")` sorts by. -/
def dateLE (a b : Bar) : Prop := a.Date ≤ b.Date

instance : DecidableRel dateLE := fun a b => Nat.decLe a.Date b.Date

instance : IsTotal Bar dateLE := ⟨fun a b => Nat.le_total a.Date b.Date⟩

instance : IsTrans Bar dateLE := ⟨fun _ _ _ hab hbc => Nat.le_trans hab hbc⟩

/-- Model of `DataFrame.sort_values("Date")`: sort the rows ascending by date
(the pandas default quicksort is unstable, so no tie order is relied upon;
any comparison sort is a faithful model). -/
def sort_values_Date (rows : List Bar) : List Bar :=
  rows.insertionSort dateLE

/-- Ascending order on a list of dates. -/
def sortedTs (l : List ℕ) : Prop := List.Sorted (· ≤ ·) l

/-! ## `streamlit_app.py` : `fetch_history` -/

/-- The tabular frame `yf.download` hands back, after the multi-level
column header has been collapsed to its first component (the `c[0]`
projection of the source; the payload is modelled post-projection with
single-level column names). `dates` is the `Date` index column; `cols`
maps a column name to its values, one per row. -/
structure RawFrame : Type where
  dates : List ℕ
  cols : List (String × List PyFloat)
deriving DecidableEq

/-- Find a named column in a frame. -/
def frame_col (cols : List (String × List PyFloat)) (name : String) : Option (List PyFloat) :=
  match cols.find? (fun c => c.1 == name) with
  | some c => some c.2
  | none => none

/-- Model of `fetch_history(ticker, start, end)` (`streamlit_app.py` lines 46-63):
renames columns with `str.title`, resets the index to a `Date` column,
fills any missing required column with `nan`, and returns the rows in the
payload order. Any exception is caught and the empty frame with the
canonical columns is returned. -/
def fetch_history (resp : HttpResult RawFrame) : List Bar :=
  match resp with
  | .exn _ => []
  | .ok f =>
      let n := f.dates.length
      let cols := f.cols.map (fun c => (py_title c.1, c.2))
      let getCol := fun name =>
        match frame_col cols name with
        | some v => v
        | none => List.replicate n PyFloat.nan
      let opens := getCol "Open"
      let highs := getCol "High"
      let lows := getCol "Low"
      let closes := getCol "Close"
      let volumes := getCol "Volume"
      (List.range n).map (fun i =>
        { Date := f.dates.getD i 0
          Open := opens.getD i PyFloat.nan
          High := highs.getD i PyFloat.nan
          Low := lows.getD i PyFloat.nan
          Close := closes.getD i PyFloat.nan
          Volume := volumes.getD i PyFloat.nan })

/-! ## `pages/Crypto_Stocks.py` : `av_fetch_daily_series` -/

/-- The decoded Alpha Vantage daily payload. `cryptoTs` is the value of the
key `Time Series (Digital Currency Daily)` and `dailyTs` of
`Time Series (Daily)`; `none` models an absent key (`data.get(key, dict())`
then yields the empty dict). Each entry is a date paired with the per-date
field dict, in the payload insertion order. -/
structure AvPayload : Type where
  cryptoTs : Option (List (ℕ × List (String × PyFloat)))
  dailyTs : Option (List (ℕ × List (String × PyFloat)))
deriving DecidableEq

/-- One row of the crypto route (`Crypto_Stocks.py` lines 54-60): `Open` is
hard-coded `np.nan`; the other fields read the USD keys of the per-date
dict, defaulting to `float("nan")` when the key is absent. -/
def avCryptoBar (date : ℕ) (vals : List (String × PyFloat)) : Bar :=
  { Date := date
    Open := PyFloat.nan
    High := dict_get vals "2a. high (USD)" PyFloat.nan
    Low := dict_get vals "3a. low (USD)" PyFloat.nan
    Close := dict_get vals "4a. close (USD)" PyFloat.nan
    Volume := dict_get vals "5. volume" PyFloat.nan }

/-- One row of the equity route (`Crypto_Stocks.py` lines 74-82). -/
def avDailyBar (date : ℕ) (vals : List (String × PyFloat)) : Bar :=
  { Date := date
    Open := dict_get vals "1. open" PyFloat.nan
    High := dict_get vals "2. high" PyFloat.nan
    Low := dict_get vals "3. low" PyFloat.nan
    Close := dict_get vals "4. close" PyFloat.nan
    Volume := dict_get vals "5. volume" PyFloat.nan }

/-- Where the suffix dispatch of `av_fetch_daily_series` sends a symbol. -/
inductive AvRoute : Type
  | cryptoRoute : String → String → AvRoute
  | equityRoute : String → AvRoute
  | splitError : AvRoute
deriving DecidableEq

/-- The dispatch of `Crypto_Stocks.py` lines 42-43: a symbol ending in
`-USD` is split with `symbol.split("-")` (every hyphen, not only the last)
and the two parts are unpacked into `(crypto_symbol, market)`; when the
split yields any other number of parts the tuple unpacking raises
`ValueError` (`splitError`). A symbol without the suffix goes to the
equity route unchanged. -/
def av_route (symbol : String) : AvRoute :=
  if py_endswith symbol "-USD" then
    match py_split symbol '-' with
    | [c, m] => .cryptoRoute c m
    | _ => .splitError
  else .equityRoute symbol

/-- Model of `av_fetch_daily_series(symbol, api_key)` (`Crypto_Stocks.py` lines
38-86). The whole body is wrapped in `try/except Exception`, so the
`ValueError` of a failed unpack, any network/JSON exception, and the
`KeyError` of `pd.DataFrame([]).sort_values("Date")` on an empty row list
all produce the empty frame with the canonical columns. On data, the rows
are built in payload order and then `sort_values("Date")` sorts them. -/
def av_fetch_daily_series (symbol : String) (resp : HttpResult AvPayload) : List Bar :=
  match av_route symbol with
  | .splitError => []
  | .cryptoRoute _ _ =>
      match resp with
      | .exn _ => []
      | .ok data =>
          match (data.cryptoTs.getD []).map (fun e => avCryptoBar e.1 e.2) with
          | [] => []
          | rows => sort_values_Date rows
  | .equityRoute _ =>
      match resp with
      | .exn _ => []
      | .ok data =>
          match (data.dailyTs.getD []).map (fun e => avDailyBar e.1 e.2) with
          | [] => []
          | rows => sort_values_Date rows

/-- The snapshot dict of `compute_snapshot_from_series`
(`Crypto_Stocks.py` lines 89-95): keys `Current Price` and `% Change`. -/
structure Snapshot : Type where
  currentPrice : PyFloat
  pctChange : PyFloat
deriving DecidableEq

/-- A placeholder row for the (never reached) out-of-range `getD` access. -/
def defaultBar : Bar :=
  { Date := 0, Open := PyFloat.nan, High := PyFloat.nan, Low := PyFloat.nan,
    Close := PyFloat.nan, Volume := PyFloat.nan }

/-- Model of `compute_snapshot_from_series(df)` (`Crypto_Stocks.py` lines 89-95):
`last = df.iloc[-1]["Close"]`, `prev = df.iloc[-2]["Close"]` when the frame
has more than one row else `nan`; the percent change is
`(last - prev) / prev * 100.0` unless `prev` is `nan`. -/
def compute_snapshot_from_series (df : List Bar) : Snapshot :=
  if df.isEmpty then { currentPrice := PyFloat.nan, pctChange := PyFloat.nan }
  else
    let last := (df.getD (df.length - 1) defaultBar).Close
    let prev := if 1 < df.length then (df.getD (df.length - 2) defaultBar).Close
                else PyFloat.nan
    let pct := if prev.isNaN then PyFloat.nan
               else ((last - prev) / prev) * PyFloat.val 100
    { currentPrice := last
      pctChange := if pct.isNaN then PyFloat.nan else pct }

/-! ## `pages/Crypto_Prices.py` -/

/-- One element of the `/coins/markets` response consumed by
`get_markets_for_cards`. `sparkline_in_7d` is `none` when the entry is not
a dict holding a `price` list (the `isinstance(x, dict)` /
`x.get("price", [])` fallbacks both yield `[]`). -/
structure MarketRaw : Type where
  id : String
  symbol : String
  name : String
  current_price : PyFloat
  price_change_percentage_24h : PyFloat
  sparkline_in_7d : Option (List PyFloat)
deriving DecidableEq

/-- One row of the frame `get_markets_for_cards` returns. -/
structure CardRow : Type where
  id : String
  symbol : String
  name : String
  current_price : PyFloat
  price_change_percentage_24h : PyFloat
  sparkline : List PyFloat
deriving DecidableEq

/-- Model of `get_markets_for_cards(ids)` (`Crypto_Prices.py` lines 27-42). There is
no `try/except`: a raised network/JSON exception propagates to the caller.
On the empty payload `[]`, `pd.DataFrame([])` has no columns, so the final
selection `df[["id", "symbol", "name", ...]]` raises `KeyError`, which also
propagates. Otherwise each row is normalized, with `sparkline` defaulting
to `[]`. -/
def get_markets_for_cards (resp : HttpResult (List MarketRaw)) :
    Except PyExn (List CardRow) :=
  match resp with
  | .exn e => .error (.netExn e)
  | .ok rows =>
      if rows.isEmpty then .error .keyError
      else .ok (rows.map (fun r =>
        { id := r.id
          symbol := r.symbol
          name := r.name
          current_price := r.current_price
          price_change_percentage_24h := r.price_change_percentage_24h
          sparkline := r.sparkline_in_7d.getD [] }))

/-- The decoded `/coins/(id)/market_chart` body: `js.get("prices", [])`
and `js.get("market_caps", [])`, each a list of `(timestamp, value)`
pairs. -/
structure ChartPayload : Type where
  prices : List (ℕ × PyFloat)
  market_caps : List (ℕ × PyFloat)
deriving DecidableEq

/-- One row of the merged market-chart frame. -/
structure ChartRow : Type where
  ts : ℕ
  price : PyFloat
  market_cap : PyFloat
deriving DecidableEq

/-- Model of `pd.merge(df_p, df_m, on="ts", how="left")`: for every price row, in
order, one output row per market-cap row with an equal timestamp, or a
single `nan`-capped row when none matches. -/
def merge_left (ps ms : List (ℕ × PyFloat)) : List ChartRow :=
  ps.flatMap (fun p =>
    match ms.filter (fun m => m.1 == p.1) with
    | [] => [{ ts := p.1, price := p.2, market_cap := PyFloat.nan }]
    | hits => hits.map (fun m => { ts := p.1, price := p.2, market_cap := m.2 }))

/-- Model of `get_market_chart(coin_id, days)` (`Crypto_Prices.py` lines 44-56).
No `try/except`: exceptions propagate. Prices and market caps are left-
merged on the timestamp; no sort is applied, so rows keep the payload
price order. (The derived `Date` column is a function of `ts` and is not
modelled separately.) -/
def get_market_chart (resp : HttpResult ChartPayload) :
    Except PyExn (List ChartRow) :=
  match resp with
  | .exn e => .error (.netExn e)
  | .ok js => .ok (merge_left js.prices js.market_caps)

/-- The timestamps of a merged chart frame, in row order. -/
def chartTs (rows : List ChartRow) : List ℕ := rows.map (fun r => r.ts)

/-- The decoded alternative.me fear-and-greed body: the `data` list, each
entry with optional `value` (already parsed: an absent key defaults to
`float("nan")`) and optional `value_classification`. -/
structure FngEntry : Type where
  value : Option PyFloat
  value_classification : Option String
deriving DecidableEq

/-- Result dict of `get_fear_greed`. -/
structure FngResult : Type where
  value : PyFloat
  classification : String
deriving DecidableEq

/-- Model of `get_fear_greed()` (`Crypto_Prices.py` lines 65-77): body wrapped in
`try/except`, and an empty `data` list falls through, so every failure
path returns `value = nan, classification = ""`. -/
def get_fear_greed (resp : HttpResult (List FngEntry)) : FngResult :=
  match resp with
  | .exn _ => { value := PyFloat.nan, classification := "" }
  | .ok data =>
      match data with
      | [] => { value := PyFloat.nan, classification := "" }
      | e :: _ =>
          { value := e.value.getD PyFloat.nan
            classification := e.value_classification.getD "" }

/-- One element of the `/coins/(id)/tickers` response: the fields
`get_market_tickers` reads, each optional except `volume`, which is
modelled as a float (`nan` for a missing or null value, matching how the
frame column sums). -/
structure TickerRaw : Type where
  market_name : Option String
  base : Option String
  target : Option String
  last : Option PyFloat
  volume : PyFloat
  trust_score : Option String
  trade_url : Option String
deriving DecidableEq

/-- One row of the frame `get_market_tickers` returns, including the
computed `Volume %` column. -/
structure TickerRow : Type where
  Exchange : Option String
  Pair : String
  Price : Option PyFloat
  Volume_24h : PyFloat
  Liquidity : Option String
  Trade_URL : Option String
  Volume_pct : PyFloat
deriving DecidableEq

/-- Python `f"(base)/(target)"` with `None` printed as `None`. -/
def pair_str (base target : Option String) : String :=
  (base.getD "None") ++ "/" ++ (target.getD "None")

/-- The `Volume %` column (`Crypto_Prices.py` lines 98-99):
`(volume / total * 100.0).round(2)` per row when the total is truthy,
otherwise the scalar `0.0` broadcast to every row. -/
def volume_pct_col (vols : List PyFloat) : List PyFloat :=
  let total := pySum vols
  if total.truthy then
    vols.map (fun v => py_round2 ((v / total) * PyFloat.val 100))
  else
    vols.map (fun _ => PyFloat.val 0)

/-- Model of `get_market_tickers(coin_id)` (`Crypto_Prices.py` lines 79-100). No
`try/except`: exceptions propagate. Each raw ticker becomes a row; when
the frame is non-empty the `Volume %` column is added (an empty frame is
returned without it, modelled as the empty row list). -/
def get_market_tickers (resp : HttpResult (List TickerRaw)) :
    Except PyExn (List TickerRow) :=
  match resp with
  | .exn e => .error (.netExn e)
  | .ok tickers =>
      let pcts := volume_pct_col (tickers.map (fun t => t.volume))
      .ok ((tickers.zip pcts).map (fun tp =>
        { Exchange := tp.1.market_name
          Pair := pair_str tp.1.base tp.1.target
          Price := tp.1.last
          Volume_24h := tp.1.volume
          Liquidity := tp.1.trust_score
          Trade_URL := tp.1.trade_url
          Volume_pct := tp.2 }))

/-- Model of `map_liq(x)` (`Crypto_Prices.py` lines 208-215): the `Liquidity`
column holds the raw `trust_score` string, or `None`/`nan` when absent;
only the three literal strings get a score. -/
def map_liq (x : Option String) : PyFloat :=
  if x = some "green" then PyFloat.val 3
  else if x = some "yellow" then PyFloat.val 2
  else if x = some "red" then PyFloat.val 1
  else PyFloat.nan

/-- The `Liquidity score` column (`Crypto_Prices.py` line 216):
`mt["Liquidity"].apply(map_liq)`. -/
def liquidity_score_col (rows : List TickerRow) : List PyFloat :=
  rows.map (fun r => map_liq r.Liquidity)

/-! ## TTL caching -/

/-- Modelled from the spec: the memoization performed by the
`st.cache_data(ttl=...)` decorators is library code not present in this
repository; this `CacheEntry`/`resolve` model follows the TTLCache
contract (`get`/`put`/`resolve`, lazy wall-clock expiry at read,
unconditional overwrite). The per-function TTL arguments themselves are
taken from the decorators in the source (see the `ttl_*` constants). -/
structure CacheEntry (α β : Type) : Type where
  key : α
  value : β
  expiresAt : ℕ
deriving DecidableEq

/-- Modelled from the spec: `get(key)` — the cached value for `key`, if an
entry exists and is unexpired at the wall-clock instant `now`. -/
def cache_get [DecidableEq α] (cache : List (CacheEntry α β)) (now : ℕ) (k : α) :
    Option β :=
  match cache.find? (fun e => decide (e.key = k ∧ now < e.expiresAt)) with
  | some e => some e.value
  | none => none

/-- Modelled from the spec: `resolve(key, ttlSeconds, computeFn)` — return
the unexpired cached value, else invoke the compute function once, store
the result with expiry `now + ttl` (overwriting any prior entry for the
key), and return it. The boolean reports whether the compute function was
invoked. -/
def resolve [DecidableEq α] (cache : List (CacheEntry α β)) (now : ℕ) (k : α)
    (ttl : ℕ) (compute : Unit → β) : β × List (CacheEntry α β) × Bool :=
  match cache_get cache now k with
  | some v => (v, cache, false)
  | none =>
      let v := compute ()
      (v, { key := k, value := v, expiresAt := now + ttl } ::
            cache.filter (fun e => decide (e.key ≠ k)), true)

/-- TTL of `get_markets_for_cards` (`Crypto_Prices.py` line 27). -/
def ttl_get_markets_for_cards : ℕ := 300

/-- TTL of `get_market_chart` (`Crypto_Prices.py` line 44). -/
def ttl_get_market_chart : ℕ := 300

/-- TTL of `get_global_data` (`Crypto_Prices.py` line 58). -/
def ttl_get_global_data : ℕ := 300

/-- TTL of `get_fear_greed` (`Crypto_Prices.py` line 65). -/
def ttl_get_fear_greed : ℕ := 300

/-- TTL of `get_market_tickers` (`Crypto_Prices.py` line 79). -/
def ttl_get_market_tickers : ℕ := 300

/-- TTL of `av_fetch_daily_series` (`Crypto_Stocks.py` line 38). -/
def ttl_av_fetch_daily_series : ℕ := 600

/-- TTL of `fetch_history` (`streamlit_app.py` line 46). -/
def ttl_fetch_history : ℕ := 600

/-- The market cap joined onto timestamp `t`: the value of the first
`market_caps` pair with that timestamp, `nan` when none exists. -/
def cap_at (caps : List (ℕ × PyFloat)) (t : ℕ) : PyFloat :=
  match caps.find? (fun m => m.1 == t) with
  | some m => m.2
  | none => PyFloat.nan

/-! ## Concrete witness inputs -/

/-- A bar carrying only a date and a closing price, as the snapshot and
trend computations consume. -/
def closeBar (d : ℕ) (c : ℚ) : Bar :=
  { Date := d, Open := PyFloat.nan, High := PyFloat.nan, Low := PyFloat.nan,
    Close := PyFloat.val c, Volume := PyFloat.nan }

/-- A raw ticker carrying only a volume, as the `Volume %` computation
consumes. -/
def volTicker (v : ℚ) : TickerRaw :=
  { market_name := none, base := none, target := none, last := none,
    volume := PyFloat.val v, trust_score := none, trade_url := none }

/-- A one-entry crypto daily payload used as a concrete witness input. -/
def cryptoPayload1 : AvPayload :=
  { cryptoTs := some [(1, [("4a. close (USD)", PyFloat.val 7)])]
    dailyTs := none }

/-! ## Arithmetic helper lemmas -/

theorem PyFloat.val_sub_val (a b : ℚ) :
    PyFloat.val a - PyFloat.val b = PyFloat.val (a - b) := rfl

theorem PyFloat.val_mul_val (a b : ℚ) :
    PyFloat.val a * PyFloat.val b = PyFloat.val (a * b) := rfl

theorem PyFloat.val_add_val (a b : ℚ) :
    PyFloat.val a + PyFloat.val b = PyFloat.val (a + b) := rfl

theorem PyFloat.isNaN_val (a : ℚ) : (PyFloat.val a).isNaN = false := rfl

theorem PyFloat.isNaN_nan : PyFloat.nan.isNaN = true := rfl

theorem PyFloat.isNaN_inf : PyFloat.inf.isNaN = false := rfl

theorem PyFloat.truthy_val (q : ℚ) :
    (PyFloat.val q).truthy = decide (q ≠ 0) := rfl

theorem PyFloat.val_div_val (a b : ℚ) (h : b ≠ 0) :
    PyFloat.val a / PyFloat.val b = PyFloat.val (a / b) := by
  show PyFloat.div _ _ = _
  simp [PyFloat.div, h]

theorem PyFloat.val_div_zero_pos (a : ℚ) (h : 0 < a) :
    PyFloat.val a / PyFloat.val 0 = PyFloat.inf := by
  show PyFloat.div _ _ = _
  simp [PyFloat.div, h, ne_of_gt h]

theorem PyFloat.inf_mul_val_pos (b : ℚ) (h : 0 < b) :
    PyFloat.inf * PyFloat.val b = PyFloat.inf := by
  show PyFloat.mul _ _ = _
  simp [PyFloat.mul, h, ne_of_gt h]

theorem py_round2_val_eq (q : ℚ) (n : ℤ) (h : round_half_even (q * 100) = n) :
    py_round2 (PyFloat.val q) = PyFloat.val ((n : ℚ) / 100) := by
  simp [py_round2, h]

theorem round_half_even_of_lt (x : ℚ) (n : ℤ) (hf : ⌊x⌋ = n) (h : x - n < 1/2) :
    round_half_even x = n := by
  simp only [round_half_even, hf]
  rw [if_pos h]

theorem round_half_even_of_gt (x : ℚ) (n : ℤ) (hf : ⌊x⌋ = n) (h1 : ¬ x - n < 1/2)
    (h2 : 1/2 < x - n) : round_half_even x = n + 1 := by
  simp only [round_half_even, hf]
  rw [if_neg h1, if_pos h2]

theorem rhe_100_3 : round_half_even ((100 : ℚ)/3 * 100) = 3333 := by
  have hf : ⌊(100 : ℚ)/3 * 100⌋ = 3333 := by
    rw [Int.floor_eq_iff]
    norm_num
  exact round_half_even_of_lt _ _ hf (by push_cast; norm_num)

theorem rhe_200_3 : round_half_even ((200 : ℚ)/3 * 100) = 6667 := by
  have hf : ⌊(200 : ℚ)/3 * 100⌋ = 6666 := by
    rw [Int.floor_eq_iff]
    norm_num
  exact round_half_even_of_gt _ _ hf (by push_cast; norm_num) (by push_cast; norm_num)

theorem PyFloat.eq_nan_of_isNaN {x : PyFloat} (h : x.isNaN = true) : x = PyFloat.nan := by
  cases x <;> simp [PyFloat.isNaN] at h ⊢

/-! ## List helper lemmas -/

theorem sortedTs_sort_values_Date (l : List Bar) :
    sortedTs ((sort_values_Date l).map Bar.Date) := by
  have h := List.sorted_insertionSort dateLE l
  unfold sortedTs sort_values_Date
  rw [List.Sorted, List.pairwise_map]
  exact h

theorem mem_sort_values_Date (b : Bar) (l : List Bar) :
    b ∈ sort_values_Date l ↔ b ∈ l :=
  (List.perm_insertionSort dateLE l).mem_iff

theorem getD_range_map (l : List ℕ) :
    (List.range l.length).map (fun i => l.getD i 0) = l := by
  apply List.ext_getElem
  · simp
  · intro i h1 h2
    simp [List.getD_eq_getElem?_getD, List.getElem?_eq_getElem h2]

theorem volume_pct_col_length (vols : List PyFloat) :
    (volume_pct_col vols).length = vols.length := by
  unfold volume_pct_col
  by_cases h : (pySum vols).truthy = true <;> simp [h]

theorem map_fst_of_zip {α β γ : Type} (f : α → γ) (l1 : List α) (l2 : List β)
    (h : l1.length ≤ l2.length) :
    (l1.zip l2).map (fun p => f p.1) = l1.map f := by
  have := List.map_fst_zip l1 l2 h
  calc (l1.zip l2).map (fun p => f p.1)
      = ((l1.zip l2).map Prod.fst).map f := by rw [List.map_map]; rfl
    _ = l1.map f := by rw [this]

theorem map_snd_of_zip {α β : Type} (l1 : List α) (l2 : List β)
    (h : l2.length ≤ l1.length) :
    (l1.zip l2).map (fun p => p.2) = l2 := by
  have := List.map_snd_zip l1 l2 h
  calc (l1.zip l2).map (fun p => p.2)
      = (l1.zip l2).map Prod.snd := rfl
    _ = l2 := this

theorem countP_add_countP_not {α : Type} (p : α → Bool) (l : List α) :
    l.countP p + l.countP (fun a => !p a) = l.length := by
  induction l with
  | nil => rfl
  | cons a t ih => by_cases h : p a <;> simp [List.countP_cons, h, ← ih] <;> omega

/-! ## Left-merge and fetch unfolding lemmas -/

theorem filter_key_of_nodup (caps : List (ℕ × PyFloat)) (t : ℕ)
    (h : (caps.map Prod.fst).Nodup) :
    caps.filter (fun m => m.1 == t)
      = match caps.find? (fun m => m.1 == t) with
        | some m => [m]
        | none => [] := by
  induction caps with
  | nil => rfl
  | cons c cs ih =>
      simp only [List.map_cons, List.nodup_cons] at h
      by_cases hc : c.1 = t
      · have hrest : cs.filter (fun m => m.1 == t) = [] := by
          rw [List.filter_eq_nil_iff]
          intro m hm
          simp only [beq_iff_eq]
          intro hmt
          apply h.1
          rw [hc, ← hmt]
          exact List.mem_map_of_mem Prod.fst hm
        rw [List.filter_cons_of_pos (by simpa using hc), hrest,
          List.find?_cons_of_pos cs (by simpa using hc)]
      · rw [List.filter_cons_of_neg (by simpa using hc),
          List.find?_cons_of_neg cs (by simpa using hc)]
        exact ih h.2

theorem merge_left_of_nodup (ps caps : List (ℕ × PyFloat))
    (h : (caps.map Prod.fst).Nodup) :
    merge_left ps caps
      = ps.map (fun p => { ts := p.1, price := p.2, market_cap := cap_at caps p.1 }) := by
  induction ps with
  | nil => rfl
  | cons p ps ih =>
      unfold merge_left at ih ⊢
      rw [List.flatMap_cons, ih, List.map_cons]
      rw [filter_key_of_nodup caps p.1 h]
      unfold cap_at
      cases hf : caps.find? (fun m => m.1 == p.1) with
      | none => simp
      | some m => simp

theorem cap_at_cons_pos (c : ℕ × PyFloat) (cs : List (ℕ × PyFloat)) (t : ℕ)
    (h : c.1 = t) : cap_at (c :: cs) t = c.2 := by
  unfold cap_at
  rw [List.find?_cons_of_pos cs (by simpa using h)]

theorem cap_at_cons_neg (c : ℕ × PyFloat) (cs : List (ℕ × PyFloat)) (t : ℕ)
    (h : ¬ c.1 = t) : cap_at (c :: cs) t = cap_at cs t := by
  unfold cap_at
  rw [List.find?_cons_of_neg cs (by simpa using h)]

theorem cap_at_not_mem (caps : List (ℕ × PyFloat)) (t : ℕ)
    (h : t ∉ caps.map Prod.fst) : cap_at caps t = PyFloat.nan := by
  unfold cap_at
  have hn : caps.find? (fun m => m.1 == t) = none := by
    rw [List.find?_eq_none]
    intro x hx
    simp only [beq_iff_eq]
    intro he
    exact h (he ▸ List.mem_map_of_mem Prod.fst hx)
  rw [hn]

theorem cap_at_mem (caps : List (ℕ × PyFloat)) (t : ℕ) (v : PyFloat)
    (hnc : (caps.map Prod.fst).Nodup) (hmem : (t, v) ∈ caps) :
    cap_at caps t = v := by
  induction caps with
  | nil => cases hmem
  | cons c cs ih =>
      simp only [List.map_cons, List.nodup_cons] at hnc
      rcases List.mem_cons.mp hmem with he | hin
      · rw [cap_at_cons_pos c cs t (by rw [← he])]
        rw [← he]
      · have hc : ¬ c.1 = t := by
          intro hct
          apply hnc.1
          rw [hct]
          exact List.mem_map_of_mem Prod.fst hin
        rw [cap_at_cons_neg c cs t hc]
        exact ih hnc.2 hin

theorem av_fetch_crypto_eq (symbol c m : String) (data : AvPayload)
    (h : av_route symbol = .cryptoRoute c m) :
    av_fetch_daily_series symbol (.ok data)
      = match (data.cryptoTs.getD []).map (fun e => avCryptoBar e.1 e.2) with
        | [] => []
        | rows => sort_values_Date rows := by
  unfold av_fetch_daily_series
  rw [h]

theorem av_fetch_equity_eq (symbol s : String) (data : AvPayload)
    (h : av_route symbol = .equityRoute s) :
    av_fetch_daily_series symbol (.ok data)
      = match (data.dailyTs.getD []).map (fun e => avDailyBar e.1 e.2) with
        | [] => []
        | rows => sort_values_Date rows := by
  unfold av_fetch_daily_series
  rw [h]

/-! ## Claims -/

/-- C1 counterexample: `get_market_chart` does not sort: a payload whose
price timestamps arrive as `[2, 1]` produces a series whose dates are
`[2, 1]`, which is not ascending. -/
theorem C1_counterexample :
    (get_market_chart (.ok ⟨[(2, PyFloat.val 5), (1, PyFloat.val 6)], []⟩)).map chartTs
      = .ok [2, 1]
    ∧ ¬ sortedTs [2, 1] := by
  constructor
  · rfl
  · simp [sortedTs, List.sorted_cons]

/-- C1 amended: `av_fetch_daily_series` sorts its bars ascending by date
on every payload; `get_market_chart` and `fetch_history` do not sort —
they return bars in the raw payload order (ascending only when the
payload already is). -/
theorem C1_amended :
    (∀ (symbol : String) (resp : HttpResult AvPayload),
        sortedTs ((av_fetch_daily_series symbol resp).map Bar.Date))
    ∧ (∀ ps caps : List (ℕ × PyFloat), (caps.map Prod.fst).Nodup →
        (get_market_chart (.ok ⟨ps, caps⟩)).map chartTs = .ok (ps.map Prod.fst))
    ∧ (∀ f : RawFrame, (fetch_history (.ok f)).map Bar.Date = f.dates) := by
  refine ⟨?_, ?_, ?_⟩
  · intro symbol resp
    cases hr : av_route symbol with
    | splitError =>
        unfold av_fetch_daily_series
        rw [hr]
        simp [sortedTs]
    | cryptoRoute c m =>
        cases resp with
        | exn e =>
            unfold av_fetch_daily_series
            rw [hr]
            simp [sortedTs]
        | ok data =>
            rw [av_fetch_crypto_eq symbol c m data hr]
            cases hrows : (data.cryptoTs.getD []).map (fun e => avCryptoBar e.1 e.2) with
            | nil => simp [sortedTs]
            | cons b bs => simpa using sortedTs_sort_values_Date (b :: bs)
    | equityRoute s =>
        cases resp with
        | exn e =>
            unfold av_fetch_daily_series
            rw [hr]
            simp [sortedTs]
        | ok data =>
            rw [av_fetch_equity_eq symbol s data hr]
            cases hrows : (data.dailyTs.getD []).map (fun e => avDailyBar e.1 e.2) with
            | nil => simp [sortedTs]
            | cons b bs => simpa using sortedTs_sort_values_Date (b :: bs)
  · intro ps caps h
    simp only [get_market_chart, Except.map]
    rw [merge_left_of_nodup ps caps h]
    simp [chartTs, List.map_map]
  · intro f
    simp only [fetch_history, List.map_map]
    exact getD_range_map f.dates

/-- C1 witness: the amended statement at concrete payloads. -/
theorem C1_amended_witness :
    sortedTs ((av_fetch_daily_series "BTC-USD"
        (.ok { cryptoTs := some [(3, []), (1, [])], dailyTs := none })).map Bar.Date)
    ∧ (get_market_chart (.ok ⟨[(2, PyFloat.val 5), (1, PyFloat.val 6)],
        [(1, PyFloat.val 4)]⟩)).map chartTs = .ok [2, 1]
    ∧ (fetch_history (.ok ⟨[9, 4], []⟩)).map Bar.Date = [9, 4] :=
  ⟨C1_amended.1 "BTC-USD" _,
   C1_amended.2.1 [(2, PyFloat.val 5), (1, PyFloat.val 6)] [(1, PyFloat.val 4)]
     (by decide),
   C1_amended.2.2 ⟨[9, 4], []⟩⟩

/-- C2 counterexample: a timeout raised inside `get_market_chart` escapes
to the caller instead of being converted into an empty series. -/
theorem C2_counterexample :
    get_market_chart (HttpResult.exn NetErr.timeout)
      = .error (.netExn .timeout)
    ∧ (get_market_chart (HttpResult.exn NetErr.timeout)).toOption = none :=
  ⟨rfl, rfl⟩

/-- C2 amended: `fetch_history`, `av_fetch_daily_series` and
`get_fear_greed` absorb every fetch failure (timeout, connection failure,
malformed body) into an empty or NaN result, while `get_markets_for_cards`,
`get_market_chart` and `get_market_tickers` let the exception propagate to
their callers. -/
theorem C2_amended :
    (∀ e, fetch_history (.exn e) = [])
    ∧ (∀ (s : String) (e : NetErr), av_fetch_daily_series s (.exn e) = [])
    ∧ (∀ e, get_fear_greed (.exn e) = { value := PyFloat.nan, classification := "" })
    ∧ (∀ e, get_markets_for_cards (.exn e) = .error (.netExn e))
    ∧ (∀ e, get_market_chart (.exn e) = .error (.netExn e))
    ∧ (∀ e, get_market_tickers (.exn e) = .error (.netExn e)) := by
  refine ⟨fun e => rfl, ?_, fun e => rfl, fun e => rfl, fun e => rfl, fun e => rfl⟩
  intro s e
  unfold av_fetch_daily_series
  cases av_route s <;> rfl

/-- C2 witness: the amended behavior at the timeout failure. -/
theorem C2_amended_witness :
    fetch_history (.exn .timeout) = []
    ∧ av_fetch_daily_series "BTC-USD" (.exn .timeout) = []
    ∧ get_fear_greed (.exn .timeout) = { value := PyFloat.nan, classification := "" }
    ∧ get_market_tickers (.exn .timeout) = .error (.netExn .timeout) :=
  ⟨C2_amended.1 .timeout, C2_amended.2.1 "BTC-USD" .timeout,
   C2_amended.2.2.1 .timeout, C2_amended.2.2.2.2.2 .timeout⟩

/-- C3 counterexample: on the two-bar series with closes `0` then `110`
the second-to-last close is `0`, and the percent change computed is
`(110 - 0) / 0 * 100 = Infinity`, not NaN as the claim states. -/
theorem C3_counterexample :
    (compute_snapshot_from_series [closeBar 1 0, closeBar 2 110]).pctChange
      = PyFloat.inf
    ∧ PyFloat.inf ≠ PyFloat.nan := by
  constructor
  · simp [compute_snapshot_from_series, closeBar, PyFloat.isNaN_val,
      PyFloat.isNaN_inf, PyFloat.val_sub_val]
    norm_num [PyFloat.val_div_zero_pos 110 (by norm_num),
      PyFloat.inf_mul_val_pos 100 (by norm_num), PyFloat.isNaN_inf,
      PyFloat.isNaN_val]
  · decide

/-- C3 amended: with fewer than two bars, or when the second-to-last close
is NaN, the percent change is NaN; with at least two bars and a non-NaN
second-to-last close it is `(last - prev) / prev * 100` under float
semantics — so a zero `prev` gives a signed infinity (or NaN for `0/0`),
not NaN in general; on closes `100` then `110` the result is `10`. -/
theorem C3_amended :
    (∀ df : List Bar, df.length < 2 →
        (compute_snapshot_from_series df).pctChange = PyFloat.nan)
    ∧ (∀ df : List Bar, 1 < df.length →
        ((df.getD (df.length - 2) defaultBar).Close.isNaN = true →
          (compute_snapshot_from_series df).pctChange = PyFloat.nan)
        ∧ ((df.getD (df.length - 2) defaultBar).Close.isNaN = false →
          (compute_snapshot_from_series df).pctChange
            = (((df.getD (df.length - 1) defaultBar).Close
                - (df.getD (df.length - 2) defaultBar).Close)
               / (df.getD (df.length - 2) defaultBar).Close) * PyFloat.val 100))
    ∧ (compute_snapshot_from_series [closeBar 1 100, closeBar 2 110]).pctChange
        = PyFloat.val 10 := by
  refine ⟨?_, ?_, ?_⟩
  · intro df h
    cases df with
    | nil => rfl
    | cons b t =>
        cases t with
        | nil => rfl
        | cons c t2 => simp at h; omega
  · intro df h
    have hne : ¬ df.isEmpty = true := by
      cases df with
      | nil => simp at h
      | cons b t => simp
    constructor
    · intro hnan
      simp only [compute_snapshot_from_series, if_neg hne, if_pos h, hnan]
      simp
    · intro hnan
      simp only [compute_snapshot_from_series, if_neg hne, if_pos h, hnan]
      simp only [Bool.false_eq_true, if_false]
      set pct := (((df.getD (df.length - 1) defaultBar).Close
                - (df.getD (df.length - 2) defaultBar).Close)
               / (df.getD (df.length - 2) defaultBar).Close) * PyFloat.val 100 with hpct
      by_cases hp : pct.isNaN = true
      · rw [if_pos hp, PyFloat.eq_nan_of_isNaN hp]
      · rw [if_neg hp]
  · simp [compute_snapshot_from_series, closeBar, PyFloat.isNaN_val,
      PyFloat.val_sub_val]
    norm_num [PyFloat.val_div_val 10 100 (by norm_num), PyFloat.val_mul_val,
      PyFloat.isNaN_val]

/-- C3 witness: the amended behavior on an empty series, a series whose
second-to-last close is NaN, and a concrete two-bar series. -/
theorem C3_amended_witness :
    (compute_snapshot_from_series []).pctChange = PyFloat.nan
    ∧ (compute_snapshot_from_series [defaultBar, closeBar 2 110]).pctChange
        = PyFloat.nan
    ∧ (compute_snapshot_from_series [closeBar 1 100, closeBar 2 110]).pctChange
        = ((([closeBar 1 100, closeBar 2 110].getD 1 defaultBar).Close
            - ([closeBar 1 100, closeBar 2 110].getD 0 defaultBar).Close)
           / ([closeBar 1 100, closeBar 2 110].getD 0 defaultBar).Close)
          * PyFloat.val 100 :=
  ⟨C3_amended.1 [] (by decide),
   (C3_amended.2.1 [defaultBar, closeBar 2 110] (by decide)).1 (by decide),
   (C3_amended.2.1 [closeBar 1 100, closeBar 2 110] (by decide)).2 (by decide)⟩

/-- C4 counterexample: `"AB-C-USD"` ends in `-USD`, but the code does not
split it on its last hyphen into base `"AB-C"`, quote `"USD"`; the
three-way `split("-")` makes the tuple unpacking raise `ValueError`, which
the `except` turns into the empty frame. -/
theorem C4_counterexample :
    py_endswith "AB-C-USD" "-USD" = true
    ∧ py_split "AB-C-USD" '-' = ["AB", "C", "USD"]
    ∧ av_route "AB-C-USD" = .splitError
    ∧ av_route "AB-C-USD" ≠ .cryptoRoute "AB-C" "USD"
    ∧ av_fetch_daily_series "AB-C-USD"
        (.ok { cryptoTs := some [(1, [("4a. close (USD)", PyFloat.val 7)])],
               dailyTs := none }) = [] := by
  refine ⟨by decide, by decide, by decide, by decide, rfl⟩

/-- C4 amended: a symbol ending in `-USD` is split on every hyphen; when
that yields exactly two parts they become `(baseSymbol, quoteCurrency)`
for the crypto route (for a single-hyphen symbol this coincides with
splitting on the last hyphen, so `"BTC-USD"` gives base `"BTC"`, quote
`"USD"`), while a `-USD` symbol containing additional hyphens fails the
two-way unpacking and yields the empty frame; a symbol without the suffix
is routed unchanged to the equity path. -/
theorem C4_amended :
    (∀ (s c m : String), py_endswith s "-USD" = true → py_split s '-' = [c, m] →
        av_route s = .cryptoRoute c m)
    ∧ (∀ s : String, py_endswith s "-USD" = false → av_route s = .equityRoute s)
    ∧ av_route "BTC-USD" = .cryptoRoute "BTC" "USD"
    ∧ av_route "AAPL" = .equityRoute "AAPL"
    ∧ (∀ (s : String) (parts : List String), py_endswith s "-USD" = true →
        py_split s '-' = parts → parts.length ≠ 2 →
        av_route s = .splitError ∧ ∀ resp, av_fetch_daily_series s resp = []) := by
  refine ⟨?_, ?_, by decide, by decide, ?_⟩
  · intro s c m h1 h2
    simp [av_route, h1, h2]
  · intro s h
    simp [av_route, h]
  · intro s parts h1 h2 h3
    have hr : av_route s = .splitError := by
      rcases parts with _ | ⟨a, _ | ⟨b, _ | ⟨c, rest⟩⟩⟩
      · simp [av_route, h1, h2]
      · simp [av_route, h1, h2]
      · exact absurd (by simp : ([a, b] : List String).length = 2) h3
      · simp [av_route, h1, h2]
    refine ⟨hr, fun resp => ?_⟩
    unfold av_fetch_daily_series
    rw [hr]

/-- C4 witness: the amended dispatch at `"BTC-USD"`, `"AAPL"` and the
double-hyphen symbol. -/
theorem C4_amended_witness :
    av_route "BTC-USD" = .cryptoRoute "BTC" "USD"
    ∧ av_route "AAPL" = .equityRoute "AAPL"
    ∧ av_route "AB-C-USD" = .splitError
    ∧ av_fetch_daily_series "AB-C-USD" (.exn .timeout) = [] :=
  ⟨C4_amended.1 "BTC-USD" "BTC" "USD" (by decide) (by decide),
   C4_amended.2.1 "AAPL" (by decide),
   (C4_amended.2.2.2.2 "AB-C-USD" ["AB", "C", "USD"] (by decide) (by decide)
      (by decide)).1,
   (C4_amended.2.2.2.2 "AB-C-USD" ["AB", "C", "USD"] (by decide) (by decide)
      (by decide)).2 (.exn .timeout)⟩

/-- C5 counterexample: `get_markets_for_cards` applied to the empty markets
list raises `KeyError` (the selection of the six output columns from a
frame with no columns), rather than returning an empty series as claimed. -/
theorem C5_counterexample :
    get_markets_for_cards (.ok []) = .error .keyError
    ∧ (get_markets_for_cards (.ok [])).toOption = none := ⟨rfl, rfl⟩

/-- C5 amended: `av_fetch_daily_series` applied to the empty payload (on
both routes) and `get_market_chart` applied to the empty payload return an
empty series, while `get_markets_for_cards` applied to the empty markets
list raises `KeyError`. -/
theorem C5_amended :
    av_fetch_daily_series "BTC-USD" (.ok { cryptoTs := none, dailyTs := none }) = []
    ∧ av_fetch_daily_series "AAPL" (.ok { cryptoTs := none, dailyTs := none }) = []
    ∧ get_market_chart (.ok { prices := [], market_caps := [] }) = .ok []
    ∧ get_markets_for_cards (.ok []) = .error .keyError := by
  refine ⟨?_, ?_, rfl, rfl⟩ <;> rfl

/-- C6 counterexample: with row volumes `[1, 2]` the stored `Volume %` of
the first row is `33.33` — the quotient `1/3 * 100` rounded to two decimal
places by `.round(2)` — which differs from the unrounded
`volume / sum * 100 = 100/3` the claim specifies. -/
theorem C6_counterexample :
    (get_market_tickers (.ok [volTicker 1, volTicker 2])).map
        (fun rows => rows.map TickerRow.Volume_pct)
      = .ok [PyFloat.val (3333/100), PyFloat.val (6667/100)]
    ∧ PyFloat.val (3333/100) ≠ PyFloat.val (100/3) := by
  constructor
  · have h1 : PyFloat.val 1 / PyFloat.val 3 = PyFloat.val (1/3) :=
      PyFloat.val_div_val 1 3 (by norm_num)
    have h2 : PyFloat.val 2 / PyFloat.val 3 = PyFloat.val (2/3) :=
      PyFloat.val_div_val 2 3 (by norm_num)
    have r1 : py_round2 (PyFloat.val (100/3)) = PyFloat.val (3333/100) := by
      rw [py_round2_val_eq (100/3) 3333 rhe_100_3]
      norm_num
    have r2 : py_round2 (PyFloat.val (200/3)) = PyFloat.val (6667/100) := by
      rw [py_round2_val_eq (200/3) 6667 rhe_200_3]
      norm_num
    simp only [get_market_tickers, Except.map, volume_pct_col, pySum, volTicker,
      List.map_cons, List.map_nil, List.foldl, PyFloat.isNaN_val, Bool.false_eq_true,
      if_false, PyFloat.val_add_val, PyFloat.truthy_val, decide_eq_true_eq]
    norm_num [h1, h2, r1, r2, PyFloat.val_mul_val, List.zip, List.zipWith]
  · simp only [ne_eq, PyFloat.val.injEq]
    norm_num

/-- C6 amended: the `Volume %` column stores `volume / total * 100` rounded
to two decimal places (`.round(2)`); when the summed volume is `0` every
row gets `0` (not NaN), and on volumes `[0, 0, 0]` the column is
`[0, 0, 0]`. -/
theorem C6_amended :
    (∀ tickers : List TickerRaw,
        (get_market_tickers (.ok tickers)).map (fun rows => rows.map TickerRow.Volume_pct)
          = .ok (volume_pct_col (tickers.map (fun t => t.volume))))
    ∧ (∀ vols : List PyFloat, pySum vols = PyFloat.val 0 →
        volume_pct_col vols = vols.map (fun _ => PyFloat.val 0))
    ∧ (get_market_tickers (.ok [volTicker 0, volTicker 0, volTicker 0])).map
        (fun rows => rows.map TickerRow.Volume_pct)
      = .ok [PyFloat.val 0, PyFloat.val 0, PyFloat.val 0] := by
  have hcol : ∀ tickers : List TickerRaw,
      (get_market_tickers (.ok tickers)).map (fun rows => rows.map TickerRow.Volume_pct)
        = .ok (volume_pct_col (tickers.map (fun t => t.volume))) := by
    intro tickers
    simp only [get_market_tickers, Except.map, List.map_map]
    congr 1
    have hlen : (volume_pct_col (tickers.map (fun t => t.volume))).length
        ≤ tickers.length := by
      rw [volume_pct_col_length, List.length_map]
    exact map_snd_of_zip tickers _ hlen
  refine ⟨hcol, ?_, ?_⟩
  · intro vols h
    unfold volume_pct_col
    rw [h]
    simp [PyFloat.truthy_val]
  · rw [hcol [volTicker 0, volTicker 0, volTicker 0]]
    simp [volume_pct_col, pySum, volTicker, PyFloat.isNaN_val, PyFloat.val_add_val,
      PyFloat.truthy_val]

/-- C6 witness: the amended statement at concrete rows, including the
all-zero payload. -/
theorem C6_amended_witness :
    (get_market_tickers (.ok [volTicker 1, volTicker 2])).map
        (fun rows => rows.map TickerRow.Volume_pct)
      = .ok (volume_pct_col ([volTicker 1, volTicker 2].map (fun t => t.volume)))
    ∧ volume_pct_col [PyFloat.val 0] = [PyFloat.val 0] := by
  refine ⟨C6_amended.1 [volTicker 1, volTicker 2], ?_⟩
  have h := C6_amended.2.1 [PyFloat.val 0] (by simp [pySum, PyFloat.isNaN_val,
    PyFloat.val_add_val])
  simpa using h

/-- C7: every bar the crypto (DIGITAL_CURRENCY_DAILY) route of
`av_fetch_daily_series` returns has `Open = nan`, and its other fields are
read from the corresponding per-date USD fields of the payload. -/
theorem C7_crypto_open_nan (c m symbol : String) (p : AvPayload) (b : Bar)
    (hroute : av_route symbol = .cryptoRoute c m)
    (hmem : b ∈ av_fetch_daily_series symbol (.ok p)) :
    b.Open = PyFloat.nan
    ∧ ∃ e ∈ p.cryptoTs.getD [], b.Date = e.1
        ∧ b.High = dict_get e.2 "2a. high (USD)" PyFloat.nan
        ∧ b.Low = dict_get e.2 "3a. low (USD)" PyFloat.nan
        ∧ b.Close = dict_get e.2 "4a. close (USD)" PyFloat.nan
        ∧ b.Volume = dict_get e.2 "5. volume" PyFloat.nan := by
  rw [av_fetch_crypto_eq symbol c m p hroute] at hmem
  have hmem2 : b ∈ (p.cryptoTs.getD []).map (fun e => avCryptoBar e.1 e.2) := by
    cases hrows : (p.cryptoTs.getD []).map (fun e => avCryptoBar e.1 e.2) with
    | nil =>
        rw [hrows] at hmem
        simp at hmem
    | cons bb bs =>
        rw [hrows] at hmem
        exact (mem_sort_values_Date b (bb :: bs)).mp hmem
  rcases List.mem_map.mp hmem2 with ⟨e, he, hbe⟩
  subst hbe
  exact ⟨rfl, e, he, rfl, rfl, rfl, rfl, rfl⟩

/-- C7 witness: a one-entry crypto payload fetched through the `"BTC-USD"`
route. -/
theorem C7_crypto_open_nan_witness :
    (avCryptoBar 1 [("4a. close (USD)", PyFloat.val 7)]).Open = PyFloat.nan
    ∧ ∃ e ∈ cryptoPayload1.cryptoTs.getD [],
        (avCryptoBar 1 [("4a. close (USD)", PyFloat.val 7)]).Date = e.1
        ∧ (avCryptoBar 1 [("4a. close (USD)", PyFloat.val 7)]).High
            = dict_get e.2 "2a. high (USD)" PyFloat.nan
        ∧ (avCryptoBar 1 [("4a. close (USD)", PyFloat.val 7)]).Low
            = dict_get e.2 "3a. low (USD)" PyFloat.nan
        ∧ (avCryptoBar 1 [("4a. close (USD)", PyFloat.val 7)]).Close
            = dict_get e.2 "4a. close (USD)" PyFloat.nan
        ∧ (avCryptoBar 1 [("4a. close (USD)", PyFloat.val 7)]).Volume
            = dict_get e.2 "5. volume" PyFloat.nan := by
  apply C7_crypto_open_nan "BTC" "USD" "BTC-USD" cryptoPayload1 _ (by decide)
  have heq : av_fetch_daily_series "BTC-USD" (.ok cryptoPayload1)
      = [avCryptoBar 1 [("4a. close (USD)", PyFloat.val 7)]] := rfl
  rw [heq]
  exact List.mem_singleton_self _

/-- C8: joining 7 price pairs with 5 market-cap pairs whose timestamps all
occur among the price timestamps (all timestamps distinct per side) gives
exactly 7 bars; a bar whose timestamp has a matching market-cap pair
carries the value of that pair, the other 2 carry NaN. -/
theorem C8_chart_join (ps caps : List (ℕ × PyFloat))
    (hps : ps.length = 7) (hcaps : caps.length = 5)
    (hnp : (ps.map Prod.fst).Nodup) (hnc : (caps.map Prod.fst).Nodup)
    (hsub : ∀ t ∈ caps.map Prod.fst, t ∈ ps.map Prod.fst) :
    (get_market_chart (.ok ⟨ps, caps⟩)).map List.length = .ok 7
    ∧ ∀ rows, get_market_chart (.ok ⟨ps, caps⟩) = .ok rows →
        (∀ r ∈ rows, (r.ts ∉ caps.map Prod.fst → r.market_cap = PyFloat.nan)
          ∧ ∀ v : PyFloat, (r.ts, v) ∈ caps → r.market_cap = v)
        ∧ rows.countP (fun r => decide (r.ts ∈ caps.map Prod.fst)) = 5
        ∧ rows.countP (fun r => !decide (r.ts ∈ caps.map Prod.fst)) = 2 := by
  have hrows : get_market_chart (.ok ⟨ps, caps⟩)
      = .ok (ps.map (fun p =>
          { ts := p.1, price := p.2, market_cap := cap_at caps p.1 })) := by
    simp only [get_market_chart]
    rw [merge_left_of_nodup ps caps hnc]
  have hc5 : (ps.map (fun p =>
      ({ ts := p.1, price := p.2, market_cap := cap_at caps p.1 } : ChartRow))).countP
        (fun r => decide (r.ts ∈ caps.map Prod.fst)) = 5 := by
    have hcount : (ps.map (fun p =>
        ({ ts := p.1, price := p.2, market_cap := cap_at caps p.1 } : ChartRow))).countP
          (fun r => decide (r.ts ∈ caps.map Prod.fst))
        = (ps.map Prod.fst).countP (fun t => decide (t ∈ caps.map Prod.fst)) := by
      rw [List.countP_map, List.countP_map]
      rfl
    have hF1 : ((ps.map Prod.fst).filter
        (fun t => decide (t ∈ caps.map Prod.fst))).Nodup := hnp.filter _
    have hF2 : ((ps.map Prod.fst).filter
        (fun t => decide (t ∈ caps.map Prod.fst))) ⊆ caps.map Prod.fst := by
      intro t ht
      have := List.of_mem_filter ht
      simpa using this
    have hF3 : caps.map Prod.fst ⊆ ((ps.map Prod.fst).filter
        (fun t => decide (t ∈ caps.map Prod.fst))) := by
      intro t ht
      exact List.mem_filter.mpr ⟨hsub t ht, by simpa using ht⟩
    have hle1 := (hF1.subperm hF2).length_le
    have hle2 := (hnc.subperm hF3).length_le
    have h5 : (caps.map Prod.fst).length = 5 := by rw [List.length_map, hcaps]
    rw [hcount, List.countP_eq_length_filter]
    omega
  constructor
  · rw [hrows]
    simp [Except.map, hps]
  · intro rows h
    rw [hrows] at h
    have hr : rows = ps.map (fun p =>
        { ts := p.1, price := p.2, market_cap := cap_at caps p.1 }) :=
      (Except.ok.injEq _ _ ▸ h).symm
    subst hr
    refine ⟨?_, hc5, ?_⟩
    · intro r hrmem
      rcases List.mem_map.mp hrmem with ⟨p, hp, hpr⟩
      subst hpr
      exact ⟨fun hnotin => cap_at_not_mem caps p.1 hnotin,
             fun v hv => cap_at_mem caps p.1 v hnc hv⟩
    · have hsum := countP_add_countP_not
        (fun r => decide (r.ts ∈ caps.map Prod.fst))
        (ps.map (fun p =>
          ({ ts := p.1, price := p.2, market_cap := cap_at caps p.1 } : ChartRow)))
      have hlen : (ps.map (fun p =>
          ({ ts := p.1, price := p.2, market_cap := cap_at caps p.1 } : ChartRow))).length
          = 7 := by
        rw [List.length_map, hps]
      omega

/-- C8 witness: a concrete 7-price, 5-cap payload. -/
theorem C8_chart_join_witness :
    (get_market_chart (.ok ⟨[(1, PyFloat.val 10), (2, PyFloat.val 20),
        (3, PyFloat.val 30), (4, PyFloat.val 40), (5, PyFloat.val 50),
        (6, PyFloat.val 60), (7, PyFloat.val 70)],
        [(1, PyFloat.val 11), (2, PyFloat.val 12), (3, PyFloat.val 13),
         (4, PyFloat.val 14), (5, PyFloat.val 15)]⟩)).map List.length = .ok 7 :=
  (C8_chart_join [(1, PyFloat.val 10), (2, PyFloat.val 20),
      (3, PyFloat.val 30), (4, PyFloat.val 40), (5, PyFloat.val 50),
      (6, PyFloat.val 60), (7, PyFloat.val 70)]
      [(1, PyFloat.val 11), (2, PyFloat.val 12), (3, PyFloat.val 13),
       (4, PyFloat.val 14), (5, PyFloat.val 15)]
      rfl rfl (by decide) (by decide) (by decide)).1

/-- C9: the per-function TTLs are 300 s for the five crypto endpoints and
600 s for the equity/futures endpoints, and `resolve` memoizes per key: a
first call on an empty cache invokes the compute function; a second call
with the same key strictly inside the TTL window returns the cached value
without invoking it again; a call at or after expiry invokes it again. -/
theorem C9_ttl_cache :
    ttl_get_markets_for_cards = 300
    ∧ ttl_get_market_chart = 300
    ∧ ttl_get_global_data = 300
    ∧ ttl_get_fear_greed = 300
    ∧ ttl_get_market_tickers = 300
    ∧ ttl_av_fetch_daily_series = 600
    ∧ ttl_fetch_history = 600
    ∧ ∀ (α β : Type) (_inst : DecidableEq α) (k : α) (ttl t0 t1 t2 : ℕ)
        (compute : Unit → β),
        (resolve ([] : List (CacheEntry α β)) t0 k ttl compute).2.2 = true
        ∧ (t1 < t0 + ttl →
            resolve (resolve ([] : List (CacheEntry α β)) t0 k ttl compute).2.1
                t1 k ttl compute
              = ((resolve ([] : List (CacheEntry α β)) t0 k ttl compute).1,
                 (resolve ([] : List (CacheEntry α β)) t0 k ttl compute).2.1,
                 false))
        ∧ (t0 + ttl ≤ t2 →
            (resolve (resolve ([] : List (CacheEntry α β)) t0 k ttl compute).2.1
                t2 k ttl compute).2.2 = true) := by
  refine ⟨rfl, rfl, rfl, rfl, rfl, rfl, rfl, ?_⟩
  intro α β inst k ttl t0 t1 t2 compute
  have h0 : resolve ([] : List (CacheEntry α β)) t0 k ttl compute
      = (compute (), [{ key := k, value := compute (), expiresAt := t0 + ttl }], true) := by
    simp [resolve, cache_get]
  refine ⟨by rw [h0], ?_, ?_⟩
  · intro ht
    rw [h0]
    simp [resolve, cache_get, ht]
  · intro ht
    rw [h0]
    have hn : ¬ t2 < t0 + ttl := by omega
    simp [resolve, cache_get, hn]

/-- C9 witness: concrete timestamps `0`, `299`, `300` with TTL 300. -/
theorem C9_ttl_cache_witness :
    (resolve ([] : List (CacheEntry ℕ ℕ)) 0 0 300 (fun _ => 7)).2.2 = true
    ∧ resolve (resolve ([] : List (CacheEntry ℕ ℕ)) 0 0 300 (fun _ => 7)).2.1
        299 0 300 (fun _ => 7)
      = ((resolve ([] : List (CacheEntry ℕ ℕ)) 0 0 300 (fun _ => 7)).1,
         (resolve ([] : List (CacheEntry ℕ ℕ)) 0 0 300 (fun _ => 7)).2.1, false)
    ∧ (resolve (resolve ([] : List (CacheEntry ℕ ℕ)) 0 0 300 (fun _ => 7)).2.1
        300 0 300 (fun _ => 7)).2.2 = true :=
  ⟨(C9_ttl_cache.2.2.2.2.2.2.2 ℕ ℕ inferInstance 0 300 0 299 300 (fun _ => 7)).1,
   (C9_ttl_cache.2.2.2.2.2.2.2 ℕ ℕ inferInstance 0 300 0 299 300 (fun _ => 7)).2.1
     (by decide),
   (C9_ttl_cache.2.2.2.2.2.2.2 ℕ ℕ inferInstance 0 300 0 299 300 (fun _ => 7)).2.2
     (by decide)⟩

/-- C10: in the markets table, `trust_score` maps to Liquidity score 3 for
green, 2 for yellow, 1 for red, and NaN for any other or absent value;
and the `Liquidity score` column of the table is exactly `map_liq` applied
to the raw `trust_score` of each ticker. -/
theorem C10_map_liq :
    map_liq (some "green") = PyFloat.val 3
    ∧ map_liq (some "yellow") = PyFloat.val 2
    ∧ map_liq (some "red") = PyFloat.val 1
    ∧ map_liq none = PyFloat.nan
    ∧ (∀ s : String, s ≠ "green" → s ≠ "yellow" → s ≠ "red" →
        map_liq (some s) = PyFloat.nan)
    ∧ (∀ tickers : List TickerRaw,
        (get_market_tickers (.ok tickers)).map liquidity_score_col
          = .ok (tickers.map (fun t => map_liq t.trust_score))) := by
  refine ⟨rfl, rfl, rfl, rfl, ?_, ?_⟩
  · intro s h1 h2 h3
    simp [map_liq, h1, h2, h3]
  · intro tickers
    simp only [get_market_tickers, Except.map, liquidity_score_col, List.map_map]
    congr 1
    have hlen : tickers.length ≤ (volume_pct_col (tickers.map (fun t => t.volume))).length := by
      rw [volume_pct_col_length, List.length_map]
    exact map_fst_of_zip (fun t => map_liq t.trust_score) tickers _ hlen

/-- C10 witness: concrete instances of the non-listed string and of the
column law. -/
theorem C10_map_liq_witness :
    map_liq (some "blue") = PyFloat.nan
    ∧ (get_market_tickers (.ok ([] : List TickerRaw))).map liquidity_score_col
        = .ok (([] : List TickerRaw).map (fun t => map_liq t.trust_score)) :=
  ⟨C10_map_liq.2.2.2.2.1 "blue" (by decide) (by decide) (by decide),
   C10_map_liq.2.2.2.2.2 []⟩

